import Mathlib

/-!
Shallow embedding of `onnxruntime/core/framework/sequential_executor.cc`
(`SequentialExecutor::Execute` and the file-local helper `ReleaseNodeMLValues`).

The executor is modelled as a pure function from an environment (the session
state, the kernels resolved by node index, the per-node kernel contexts with
their fences, the execution plan, and the outcomes of the calls into the
`ExecutionFrame`) to the returned `Status` together with the trace of
externally visible calls the loop makes: fence transitions, kernel `Compute`
invocations, value releases, output gathering and memory-pattern-cache calls.
Profiling/logging calls are observers only and are not part of the trace.
-/

namespace SeqExec

/-- `onnxruntime::common::Status`: an explicit result value carrying
(category, code, message); `OK` is the distinguished success value
(`IsOK()`). Mirrors `Status(compute_status.Category(), compute_status.Code(),
msg_string)` construction in the source. -/
inductive Status where
  | ok : Status
  | error (category : Nat) (code : Nat) (message : String) : Status
deriving DecidableEq

/-- `Status::IsOK()`. -/
def Status.isOK : Status → Bool
  | .ok => true
  | .error _ _ _ => false

/-- `StatusCategory::ONNXRUNTIME`, the category used by `ORT_MAKE_STATUS(ONNXRUNTIME, ...)`. -/
def ONNXRUNTIME : Nat := 2

/-- `common::FAIL`, the code used by `ORT_MAKE_STATUS(ONNXRUNTIME, FAIL, ...)`. -/
def FAIL : Nat := 1

/-- `onnxruntime::kCpuExecutionProvider`. -/
def kCpuExecutionProvider : String := "CPUExecutionProvider"

/-- The resolved `OpKernel` for a node, as the executor sees it:
`KernelDef().ExecQueueId()`, `Node().GetExecutionProviderType()`,
`Node().Name()`, `KernelDef().InputMemoryType(i) == OrtMemTypeCPUInput`,
and the outcome of `Compute(&op_kernel_context)` for this run. -/
structure Kernel where
  execQueueId : Nat
  providerType : String
  nodeName : String
  inputMemTypeCpuInput : Nat → Bool
  compute : Status

/-- The per-node `OpKernelContextInternal` view the loop queries: the three
index ranges and the fence (if any) attached to each input, implicit input
and output position (`InputFence` / `ImplicitInputFence` / `OutputFence`
returning `Fence_t`, null modelled as `none`; fences are identified by a
numeric id). -/
structure OpKernelContext where
  inputCount : Nat
  implicitInputCount : Nat
  outputCount : Nat
  inputFence : Nat → Option Nat
  implicitInputFence : Nat → Option Nat
  outputFence : Nat → Option Nat

/-- `SequentialExecutionPlan::NodeExecutionPlan`: the node to run and the
inclusive range `[free_from_index, free_to_index]` of positions into the
plan's shared `to_be_freed` sequence. The C++ fields are nonnegative `int`
values; they are modelled as `Nat` (an empty range is written
`free_from_index > free_to_index`, as the planner does). -/
structure NodeExecutionPlan where
  node_index : Nat
  free_from_index : Nat
  free_to_index : Nat
deriving DecidableEq

/-- One original input (`OrtValue` feed): whether `IsTensor()` holds and, for
a tensor, its shape (`Get<Tensor>().Shape()`). -/
structure Feed where
  isTensor : Bool
  shape : List Nat
deriving DecidableEq

/-- The externally visible calls the executor makes, in program order.
`beforeInputFence f p q` is `fence->BeforeUsingAsInput(p, q)` on fence `f`
(used for both explicit and implicit inputs, as in the source);
`beforeOutputFence` is `BeforeUsingAsOutput`; `afterInputFence` /
`afterOutputFence` are `AfterUsedAsInput` / `AfterUsedAsOutput`;
`compute n` is `p_op_kernel->Compute(...)` for node index `n`;
`release v` is `frame.ReleaseMLValue(v)`; `getOutputs` is
`frame.GetOutputs(fetches)`; `generatePatterns` is
`frame.GeneratePatterns(...)`; `updateCache shapes` is
`session_state.UpdateMemoryPatternGroupCache(input_shapes, ...)`. -/
inductive Event where
  | beforeInputFence (fence : Nat) (provider : String) (queue : Nat)
  | beforeOutputFence (fence : Nat) (provider : String) (queue : Nat)
  | afterInputFence (fence : Nat) (queue : Nat)
  | afterOutputFence (fence : Nat) (queue : Nat)
  | compute (node_index : Nat)
  | release (ort_value_idx : Nat)
  | getOutputs
  | generatePatterns
  | updateCache (input_shapes : List (List Nat))
deriving DecidableEq

/-- Everything `Execute` consults: the bound plan and session state, plus the
outcomes of the calls into the `ExecutionFrame` and session-level cache
(those collaborators live outside this source file; only the outcome of each
call is relevant to the control flow here). `terminate_flag j` is the value
of the shared cancellation flag observed by the poll at the start of step
`j` (the flag is read once per iteration). -/
structure Env where
  execution_plan : List NodeExecutionPlan
  to_be_freed : List Nat
  nodeHasFence : Nat → Bool
  getKernel : Nat → Option Kernel
  graphNodeName : Nat → String
  opKernelContext : Nat → OpKernelContext
  terminate_flag : Nat → Bool
  releaseMLValue : Nat → Status
  getOutputsStatus : Status
  hasMemoryPatternPlanner : Bool
  feeds : List Feed
  generatePatternsStatus : Status
  updateMemoryPatternGroupCacheStatus : Status

/-- The first fence loop of the before-sync block: for each input position,
if it carries a fence, call `BeforeUsingAsInput` with the node's execution
provider type — overridden to the CPU provider when the kernel declares the
position `OrtMemTypeCPUInput`. -/
def beforeInputFences (p_op_kernel : Kernel) (ctx : OpKernelContext) (queue_id : Nat) :
    List Event :=
  (List.range ctx.inputCount).filterMap fun input_index =>
    match ctx.inputFence input_index with
    | none => none
    | some fence =>
        let execution_provider_type := p_op_kernel.providerType
        let execution_provider_type :=
          if p_op_kernel.inputMemTypeCpuInput input_index then kCpuExecutionProvider
          else execution_provider_type
        some (.beforeInputFence fence execution_provider_type queue_id)

/-- The second fence loop of the before-sync block (implicit inputs); the
source applies the same `InputMemoryType(input_index)` override, indexed by
the implicit-input position. -/
def beforeImplicitInputFences (p_op_kernel : Kernel) (ctx : OpKernelContext) (queue_id : Nat) :
    List Event :=
  (List.range ctx.implicitInputCount).filterMap fun input_index =>
    match ctx.implicitInputFence input_index with
    | none => none
    | some fence =>
        let execution_provider_type := p_op_kernel.providerType
        let execution_provider_type :=
          if p_op_kernel.inputMemTypeCpuInput input_index then kCpuExecutionProvider
          else execution_provider_type
        some (.beforeInputFence fence execution_provider_type queue_id)

/-- The third fence loop of the before-sync block: outputs always use the
node's execution provider type, with no CPU-input override. -/
def beforeOutputFences (p_op_kernel : Kernel) (ctx : OpKernelContext) (queue_id : Nat) :
    List Event :=
  (List.range ctx.outputCount).filterMap fun output_index =>
    match ctx.outputFence output_index with
    | none => none
    | some fence =>
        some (.beforeOutputFence fence p_op_kernel.providerType queue_id)

/-- The whole `if (seq_exec_plan.NodeHasFence(node_index))` before-sync block. -/
def beforeFencePhase (p_op_kernel : Kernel) (ctx : OpKernelContext) (queue_id : Nat) :
    List Event :=
  beforeInputFences p_op_kernel ctx queue_id ++
    beforeImplicitInputFences p_op_kernel ctx queue_id ++
    beforeOutputFences p_op_kernel ctx queue_id

/-- The after-sync loop over inputs: `fence->AfterUsedAsInput(queue_id)`. -/
def afterInputFences (ctx : OpKernelContext) (queue_id : Nat) : List Event :=
  (List.range ctx.inputCount).filterMap fun input_index =>
    match ctx.inputFence input_index with
    | none => none
    | some fence => some (.afterInputFence fence queue_id)

/-- The after-sync loop over implicit inputs. -/
def afterImplicitInputFences (ctx : OpKernelContext) (queue_id : Nat) : List Event :=
  (List.range ctx.implicitInputCount).filterMap fun input_index =>
    match ctx.implicitInputFence input_index with
    | none => none
    | some fence => some (.afterInputFence fence queue_id)

/-- The after-sync loop over outputs: `fence->AfterUsedAsOutput(queue_id)`. -/
def afterOutputFences (ctx : OpKernelContext) (queue_id : Nat) : List Event :=
  (List.range ctx.outputCount).filterMap fun output_index =>
    match ctx.outputFence output_index with
    | none => none
    | some fence => some (.afterOutputFence fence queue_id)

/-- The whole after-sync block (runs only after a successful `Compute`). -/
def afterFencePhase (ctx : OpKernelContext) (queue_id : Nat) : List Event :=
  afterInputFences ctx queue_id ++ afterImplicitInputFences ctx queue_id ++
    afterOutputFences ctx queue_id

/-- The loop of `ReleaseNodeMLValues` unrolled on its iteration count:
`releaseLoopFuel rel tbf n i` performs the remaining `n` iterations of
`for (; i <= free_to_index; ++i)` starting at position `i`, releasing
`to_be_freed[i]` each time and returning the first failing status
(`ORT_RETURN_IF_ERROR`). -/
def releaseLoopFuel (releaseMLValue : Nat → Status) (to_be_freed : List Nat) :
    Nat → Nat → Status × List Event
  | 0, _ => (.ok, [])
  | fuel + 1, i =>
      let ort_value_idx := to_be_freed.getD i 0
      match releaseMLValue ort_value_idx with
      | .ok =>
          let r := releaseLoopFuel releaseMLValue to_be_freed fuel (i + 1)
          (r.1, .release ort_value_idx :: r.2)
      | .error c d m => (.error c d m, [.release ort_value_idx])

/-- The loop body of `ReleaseNodeMLValues`:
`for (auto i = free_from_index; i <= free_to_index; ++i)` releasing
`to_be_freed[i]`; the loop runs `free_to_index + 1 - i` times (zero when
`i > free_to_index`, as in the source's empty ranges). -/
def releaseLoop (releaseMLValue : Nat → Status) (to_be_freed : List Nat)
    (i free_to_index : Nat) : Status × List Event :=
  releaseLoopFuel releaseMLValue to_be_freed (free_to_index + 1 - i) i

/-- `ReleaseNodeMLValues(frame, seq_exec_plan, node_exec_plan, logger)`. -/
def ReleaseNodeMLValues (env : Env) (node_exec_plan : NodeExecutionPlan) :
    Status × List Event :=
  releaseLoop env.releaseMLValue env.to_be_freed
    node_exec_plan.free_from_index node_exec_plan.free_to_index

/-- One loop iteration of `SequentialExecutor::Execute`, after the
terminate-flag poll: kernel lookup (null is a fatal `ORT_MAKE_STATUS`),
before-sync fences, `Compute` (a failure is re-wrapped keeping the original
category and code, with the node name added to the message, and returned
before any after-sync or release), after-sync fences, and
`ReleaseNodeMLValues`. -/
def stepRun (env : Env) (node_exec_plan : NodeExecutionPlan) : Status × List Event :=
  let node_index := node_exec_plan.node_index
  match env.getKernel node_index with
  | none =>
      (.error ONNXRUNTIME FAIL
        ("Got nullptr from GetKernel for node: " ++ env.graphNodeName node_index), [])
  | some p_op_kernel =>
      let op_kernel_context := env.opKernelContext node_index
      let queue_id := p_op_kernel.execQueueId
      let before :=
        if env.nodeHasFence node_index then
          beforeFencePhase p_op_kernel op_kernel_context queue_id
        else []
      match p_op_kernel.compute with
      | .error cat code msg =>
          (.error cat code
            ("Non-zero status code returned while running Node: " ++ p_op_kernel.nodeName ++
              " Status Message: " ++ msg),
            before ++ [.compute node_index])
      | .ok =>
          let after :=
            if env.nodeHasFence node_index then
              afterFencePhase op_kernel_context queue_id
            else []
          let rel := ReleaseNodeMLValues env node_exec_plan
          (rel.1, before ++ [.compute node_index] ++ after ++ rel.2)

/-- The message of the status returned when the terminate flag is observed set. -/
def terminateMessage : String := "Exiting due to terminate flag being set to true."

/-- The status returned when the terminate flag is observed set:
`ORT_MAKE_STATUS(ONNXRUNTIME, FAIL, "Exiting due to terminate flag being set to true.")`. -/
def terminateStatus : Status := .error ONNXRUNTIME FAIL terminateMessage

/-- The main `for (const auto& node_exec_plan : exec_plan_vec)` loop:
poll the terminate flag, then run the step; any non-OK step status is
returned immediately. `step_idx` counts iterations (it indexes the poll of
the shared flag). -/
def runSteps (env : Env) (steps : List NodeExecutionPlan) (step_idx : Nat) :
    Status × List Event :=
  match steps with
  | [] => (.ok, [])
  | node_exec_plan :: rest =>
      if env.terminate_flag step_idx then (terminateStatus, [])
      else
        let r := stepRun env node_exec_plan
        if r.1.isOK then
          let r2 := runSteps env rest (step_idx + 1)
          (r2.1, r.2 ++ r2.2)
        else (r.1, r.2)

/-- `SequentialExecutor::Execute`: the loop, then `frame.GetOutputs(fetches)`
(`ORT_RETURN_IF_ERROR`), then — only when the frame has a memory-pattern
planner and every feed `IsTensor()` — `frame.GeneratePatterns` and
`session_state.UpdateMemoryPatternGroupCache` on the collected input shapes
(each under `ORT_RETURN_IF_ERROR`). -/
def Execute (env : Env) : Status × List Event :=
  let loop := runSteps env env.execution_plan 0
  match loop.1 with
  | .error c d m => (.error c d m, loop.2)
  | .ok =>
      match env.getOutputsStatus with
      | .error c d m => (.error c d m, loop.2 ++ [.getOutputs])
      | .ok =>
          if env.hasMemoryPatternPlanner then
            let all_tensors := env.feeds.all fun feed => feed.isTensor
            if all_tensors then
              let input_shapes := env.feeds.map fun feed => feed.shape
              match env.generatePatternsStatus with
              | .error c d m => (.error c d m, loop.2 ++ [.getOutputs, .generatePatterns])
              | .ok =>
                  match env.updateMemoryPatternGroupCacheStatus with
                  | .error c d m =>
                      (.error c d m,
                        loop.2 ++ [.getOutputs, .generatePatterns, .updateCache input_shapes])
                  | .ok =>
                      (.ok,
                        loop.2 ++ [.getOutputs, .generatePatterns, .updateCache input_shapes])
            else (.ok, loop.2 ++ [.getOutputs])
          else (.ok, loop.2 ++ [.getOutputs])

/-- The node index of a `compute` event, `none` for every other event. -/
def eventNode : Event → Option Nat
  | .compute n => some n
  | _ => none

/-- The sequence of kernel `Compute` invocations (by node index) recorded in
a trace, in order. -/
def computeEvents (l : List Event) : List Nat := l.filterMap eventNode

/-- Whether an event is one of the four fence before-use transitions. -/
def isBeforeFence : Event → Bool
  | .beforeInputFence _ _ _ => true
  | .beforeOutputFence _ _ _ => true
  | _ => false

/-- Whether an event is a fence after-use transition. -/
def isAfterFence : Event → Bool
  | .afterInputFence _ _ => true
  | .afterOutputFence _ _ => true
  | _ => false

/-- Whether an event is a `ReleaseMLValue` call. -/
def isRelease : Event → Bool
  | .release _ => true
  | _ => false

/-- The queue id a fence event carries, `none` for non-fence events. -/
def eventQueue : Event → Option Nat
  | .beforeInputFence _ _ q => some q
  | .beforeOutputFence _ _ q => some q
  | .afterInputFence _ q => some q
  | .afterOutputFence _ q => some q
  | _ => none

/-- Whether an event can be produced inside the step loop (as opposed to the
post-loop output gathering and pattern-cache calls). -/
def isStepEvent : Event → Bool
  | .getOutputs => false
  | .generatePatterns => false
  | .updateCache _ => false
  | _ => true

/-- The concatenated traces of a list of steps (the loop trace when every
step succeeds). -/
def stepsTrace (env : Env) : List NodeExecutionPlan → List Event
  | [] => []
  | p :: rest => (stepRun env p).2 ++ stepsTrace env rest

/-- `Status::ErrorMessage()` (empty for `OK`). -/
def Status.errorMessage : Status → String
  | .ok => ""
  | .error _ _ m => m

/-! ### Concrete runs used to evaluate the embedding on closed inputs -/

/-- A kernel context with no inputs, implicit inputs or outputs. -/
def ctxEmpty : OpKernelContext :=
  ⟨0, 0, 0, fun _ => none, fun _ => none, fun _ => none⟩

/-- A fenced kernel context: two inputs (fences 10 and 13), one implicit
input (fence 11), one output (fence 12). -/
def ctxF : OpKernelContext :=
  ⟨2, 1, 1, fun j => if j = 0 then some 10 else some 13, fun _ => some 11,
    fun _ => some 12⟩

/-- A CPU kernel named nodeA whose `Compute` succeeds. -/
def kernelOkA : Kernel := ⟨0, kCpuExecutionProvider, "nodeA", fun _ => false, .ok⟩

/-- A CPU kernel named nodeB whose `Compute` succeeds. -/
def kernelOkB : Kernel := ⟨0, kCpuExecutionProvider, "nodeB", fun _ => false, .ok⟩

/-- A kernel named nodeB whose `Compute` fails with category 7, code 9. -/
def kernelErrB : Kernel := ⟨0, kCpuExecutionProvider, "nodeB", fun _ => false, .error 7 9 "boom"⟩

/-- A fenced kernel on provider MyEP, queue 3, whose first input position is
declared `OrtMemTypeCPUInput`. -/
def kernelFenced : Kernel := ⟨3, "MyEP", "nodeF", fun j => j == 0, .ok⟩

/-- Plan step running node 0 with an empty release range. -/
def stepA : NodeExecutionPlan := ⟨0, 1, 0⟩

/-- Plan step running node 1 with an empty release range. -/
def stepB : NodeExecutionPlan := ⟨1, 1, 0⟩

/-- Plan step running node 0 releasing positions 0..1 of `to_be_freed`. -/
def stepR : NodeExecutionPlan := ⟨0, 0, 1⟩

/-- A fully successful two-step run with a memory-pattern planner and one
tensor feed. -/
def envOK : Env :=
  ⟨[stepA, stepB], [], fun _ => false,
    fun n => if n = 0 then some kernelOkA else some kernelOkB,
    fun n => if n = 0 then "nodeA" else "nodeB",
    fun _ => ctxEmpty, fun _ => false, fun _ => Status.ok,
    Status.ok, true, [⟨true, [1, 3, 224, 224]⟩], Status.ok, Status.ok⟩

/-- A run whose only step succeeds but whose output gathering fails. -/
def envC1x : Env :=
  ⟨[stepA], [], fun _ => false, fun _ => some kernelOkA, fun _ => "nodeA",
    fun _ => ctxEmpty, fun _ => false, fun _ => Status.ok,
    Status.error 2 1 "no output", false, [], Status.ok, Status.ok⟩

/-- A run whose second step's kernel `Compute` fails. -/
def envC2x : Env :=
  ⟨[stepA, stepB], [], fun _ => false,
    fun n => if n = 0 then some kernelOkA else some kernelErrB,
    fun n => if n = 0 then "nodeA" else "nodeB",
    fun _ => ctxEmpty, fun _ => false, fun _ => Status.ok,
    Status.ok, false, [], Status.ok, Status.ok⟩

/-- A single fenced step run with `kernelFenced` and context `ctxF`. -/
def envFenced : Env :=
  ⟨[stepA], [], fun _ => true, fun _ => some kernelFenced, fun _ => "nodeF",
    fun _ => ctxF, fun _ => false, fun _ => Status.ok,
    Status.ok, false, [], Status.ok, Status.ok⟩

/-- A run whose step releases slots 5 and 7, both releases succeeding. -/
def envRel : Env :=
  ⟨[stepR], [5, 7], fun _ => false, fun _ => some kernelOkA, fun _ => "nodeA",
    fun _ => ctxEmpty, fun _ => false, fun _ => Status.ok,
    Status.ok, false, [], Status.ok, Status.ok⟩

/-- Like `envRel` but releasing slot 7 fails with category 4, code 2. -/
def envRelErr : Env :=
  ⟨[stepR], [5, 7], fun _ => false, fun _ => some kernelOkA, fun _ => "nodeA",
    fun _ => ctxEmpty, fun _ => false,
    fun v => if v = 7 then Status.error 4 2 "free failed" else Status.ok,
    Status.ok, false, [], Status.ok, Status.ok⟩

/-- A two-step run whose terminate flag is observed set at the poll before
step 1. -/
def envTerm : Env :=
  ⟨[stepA, stepB], [], fun _ => false,
    fun n => if n = 0 then some kernelOkA else some kernelOkB,
    fun n => if n = 0 then "nodeA" else "nodeB",
    fun _ => ctxEmpty, fun j => j == 1, fun _ => Status.ok,
    Status.ok, false, [], Status.ok, Status.ok⟩

/-- A two-step run in which the kernel lookup for node 1 yields null. -/
def envNull : Env :=
  ⟨[stepA, stepB], [], fun _ => false,
    fun n => if n = 0 then some kernelOkA else none,
    fun n => if n = 0 then "nodeA" else "nodeB",
    fun _ => ctxEmpty, fun _ => false, fun _ => Status.ok,
    Status.ok, false, [], Status.ok, Status.ok⟩

/-- A successful empty-plan run with an all-tensor feed but no
memory-pattern planner on the frame. -/
def envC6x : Env :=
  ⟨[], [], fun _ => false, fun _ => none, fun _ => "", fun _ => ctxEmpty,
    fun _ => false, fun _ => Status.ok, Status.ok, false, [⟨true, [1]⟩],
    Status.ok, Status.ok⟩

/-- A successful run up to pattern generation, which fails (category 3,
code 5). -/
def envC10a : Env :=
  ⟨[stepA], [], fun _ => false, fun _ => some kernelOkA, fun _ => "nodeA",
    fun _ => ctxEmpty, fun _ => false, fun _ => Status.ok,
    Status.ok, true, [⟨true, [2, 2]⟩], Status.error 3 5 "gen fail", Status.ok⟩

/-- A successful run up to the pattern-cache update, which fails (category
3, code 6). -/
def envC10b : Env :=
  ⟨[stepA], [], fun _ => false, fun _ => some kernelOkA, fun _ => "nodeA",
    fun _ => ctxEmpty, fun _ => false, fun _ => Status.ok,
    Status.ok, true, [⟨true, [2, 2]⟩], Status.ok, Status.error 3 6 "upd fail"⟩

/-! ### Shape of the fence phases -/

theorem mem_beforeInputFences {k : Kernel} {ctx : OpKernelContext} {q : Nat} {e : Event} :
    e ∈ beforeInputFences k ctx q ↔
      ∃ j, j < ctx.inputCount ∧ ∃ f, ctx.inputFence j = some f ∧
        e = .beforeInputFence f
          (if k.inputMemTypeCpuInput j then kCpuExecutionProvider else k.providerType) q := by
  simp only [beforeInputFences, List.mem_filterMap, List.mem_range]
  constructor
  · rintro ⟨j, hj, hf⟩
    cases hfe : ctx.inputFence j with
    | none => rw [hfe] at hf; simp at hf
    | some f =>
        rw [hfe] at hf
        simp only [Option.some.injEq] at hf
        exact ⟨j, hj, f, hfe, hf.symm⟩
  · rintro ⟨j, hj, f, hfe, rfl⟩
    exact ⟨j, hj, by rw [hfe]⟩

theorem mem_beforeImplicitInputFences {k : Kernel} {ctx : OpKernelContext} {q : Nat}
    {e : Event} :
    e ∈ beforeImplicitInputFences k ctx q ↔
      ∃ j, j < ctx.implicitInputCount ∧ ∃ f, ctx.implicitInputFence j = some f ∧
        e = .beforeInputFence f
          (if k.inputMemTypeCpuInput j then kCpuExecutionProvider else k.providerType) q := by
  simp only [beforeImplicitInputFences, List.mem_filterMap, List.mem_range]
  constructor
  · rintro ⟨j, hj, hf⟩
    cases hfe : ctx.implicitInputFence j with
    | none => rw [hfe] at hf; simp at hf
    | some f =>
        rw [hfe] at hf
        simp only [Option.some.injEq] at hf
        exact ⟨j, hj, f, hfe, hf.symm⟩
  · rintro ⟨j, hj, f, hfe, rfl⟩
    exact ⟨j, hj, by rw [hfe]⟩

theorem mem_beforeOutputFences {k : Kernel} {ctx : OpKernelContext} {q : Nat} {e : Event} :
    e ∈ beforeOutputFences k ctx q ↔
      ∃ j, j < ctx.outputCount ∧ ∃ f, ctx.outputFence j = some f ∧
        e = .beforeOutputFence f k.providerType q := by
  simp only [beforeOutputFences, List.mem_filterMap, List.mem_range]
  constructor
  · rintro ⟨j, hj, hf⟩
    cases hfe : ctx.outputFence j with
    | none => rw [hfe] at hf; simp at hf
    | some f =>
        rw [hfe] at hf
        simp only [Option.some.injEq] at hf
        exact ⟨j, hj, f, hfe, hf.symm⟩
  · rintro ⟨j, hj, f, hfe, rfl⟩
    exact ⟨j, hj, by rw [hfe]⟩

theorem mem_afterInputFences {ctx : OpKernelContext} {q : Nat} {e : Event} :
    e ∈ afterInputFences ctx q ↔
      ∃ j, j < ctx.inputCount ∧ ∃ f, ctx.inputFence j = some f ∧
        e = .afterInputFence f q := by
  simp only [afterInputFences, List.mem_filterMap, List.mem_range]
  constructor
  · rintro ⟨j, hj, hf⟩
    cases hfe : ctx.inputFence j with
    | none => rw [hfe] at hf; simp at hf
    | some f =>
        rw [hfe] at hf
        simp only [Option.some.injEq] at hf
        exact ⟨j, hj, f, hfe, hf.symm⟩
  · rintro ⟨j, hj, f, hfe, rfl⟩
    exact ⟨j, hj, by rw [hfe]⟩

theorem mem_afterImplicitInputFences {ctx : OpKernelContext} {q : Nat} {e : Event} :
    e ∈ afterImplicitInputFences ctx q ↔
      ∃ j, j < ctx.implicitInputCount ∧ ∃ f, ctx.implicitInputFence j = some f ∧
        e = .afterInputFence f q := by
  simp only [afterImplicitInputFences, List.mem_filterMap, List.mem_range]
  constructor
  · rintro ⟨j, hj, hf⟩
    cases hfe : ctx.implicitInputFence j with
    | none => rw [hfe] at hf; simp at hf
    | some f =>
        rw [hfe] at hf
        simp only [Option.some.injEq] at hf
        exact ⟨j, hj, f, hfe, hf.symm⟩
  · rintro ⟨j, hj, f, hfe, rfl⟩
    exact ⟨j, hj, by rw [hfe]⟩

theorem mem_afterOutputFences {ctx : OpKernelContext} {q : Nat} {e : Event} :
    e ∈ afterOutputFences ctx q ↔
      ∃ j, j < ctx.outputCount ∧ ∃ f, ctx.outputFence j = some f ∧
        e = .afterOutputFence f q := by
  simp only [afterOutputFences, List.mem_filterMap, List.mem_range]
  constructor
  · rintro ⟨j, hj, hf⟩
    cases hfe : ctx.outputFence j with
    | none => rw [hfe] at hf; simp at hf
    | some f =>
        rw [hfe] at hf
        simp only [Option.some.injEq] at hf
        exact ⟨j, hj, f, hfe, hf.symm⟩
  · rintro ⟨j, hj, f, hfe, rfl⟩
    exact ⟨j, hj, by rw [hfe]⟩

theorem beforeFencePhase_events {k : Kernel} {ctx : OpKernelContext} {q : Nat} :
    ∀ e ∈ beforeFencePhase k ctx q,
      isBeforeFence e = true ∧ eventQueue e = some q ∧ eventNode e = none ∧
        isStepEvent e = true := by
  intro e he
  rcases List.mem_append.1 he with h | h
  · rcases List.mem_append.1 h with h' | h'
    · rcases mem_beforeInputFences.1 h' with ⟨j, _, f, _, rfl⟩
      exact ⟨rfl, rfl, rfl, rfl⟩
    · rcases mem_beforeImplicitInputFences.1 h' with ⟨j, _, f, _, rfl⟩
      exact ⟨rfl, rfl, rfl, rfl⟩
  · rcases mem_beforeOutputFences.1 h with ⟨j, _, f, _, rfl⟩
    exact ⟨rfl, rfl, rfl, rfl⟩

theorem afterFencePhase_events {ctx : OpKernelContext} {q : Nat} :
    ∀ e ∈ afterFencePhase ctx q,
      isAfterFence e = true ∧ eventQueue e = some q ∧ eventNode e = none ∧
        isStepEvent e = true := by
  intro e he
  rcases List.mem_append.1 he with h | h
  · rcases List.mem_append.1 h with h' | h'
    · rcases mem_afterInputFences.1 h' with ⟨j, _, f, _, rfl⟩
      exact ⟨rfl, rfl, rfl, rfl⟩
    · rcases mem_afterImplicitInputFences.1 h' with ⟨j, _, f, _, rfl⟩
      exact ⟨rfl, rfl, rfl, rfl⟩
  · rcases mem_afterOutputFences.1 h with ⟨j, _, f, _, rfl⟩
    exact ⟨rfl, rfl, rfl, rfl⟩

/-! ### The release loop -/

theorem releaseLoopFuel_events (releaseMLValue : Nat → Status) (to_be_freed : List Nat) :
    ∀ n i, ∀ e ∈ (releaseLoopFuel releaseMLValue to_be_freed n i).2,
      isRelease e = true ∧ eventNode e = none ∧ isStepEvent e = true := by
  intro n
  induction n with
  | zero => intro i e he; simp [releaseLoopFuel] at he
  | succ m ih =>
      intro i e he
      rw [releaseLoopFuel] at he
      simp only [] at he
      cases hrel : releaseMLValue (to_be_freed.getD i 0) with
      | ok =>
          rw [hrel] at he
          simp only [List.mem_cons] at he
          rcases he with rfl | he
          · exact ⟨rfl, rfl, rfl⟩
          · exact ih (i + 1) e he
      | error c d msg =>
          rw [hrel] at he
          simp only [List.mem_singleton] at he
          subst he
          exact ⟨rfl, rfl, rfl⟩

theorem releaseLoop_events (releaseMLValue : Nat → Status) (to_be_freed : List Nat) :
    ∀ n i t, t + 1 - i = n →
      ∀ e ∈ (releaseLoop releaseMLValue to_be_freed i t).2,
        isRelease e = true ∧ eventNode e = none ∧ isStepEvent e = true := by
  intro n i t _ e he
  exact releaseLoopFuel_events releaseMLValue to_be_freed (t + 1 - i) i e he

theorem releaseLoopFuel_all_ok (releaseMLValue : Nat → Status) (to_be_freed : List Nat) :
    ∀ n i, (∀ j, i ≤ j → j < i + n → releaseMLValue (to_be_freed.getD j 0) = .ok) →
      releaseLoopFuel releaseMLValue to_be_freed n i =
        (.ok, (List.range n).map fun j => Event.release (to_be_freed.getD (i + j) 0)) := by
  intro n
  induction n with
  | zero => intro i _; simp [releaseLoopFuel]
  | succ m ih =>
      intro i hok
      rw [releaseLoopFuel]
      simp only []
      rw [hok i le_rfl (by omega)]
      rw [ih (i + 1) (fun j hj hj2 => hok j (by omega) (by omega))]
      simp only [List.range_succ_eq_map, List.map_cons, List.map_map]
      refine congrArg (Prod.mk Status.ok) ?_
      rw [Nat.add_zero]
      refine congrArg (List.cons (Event.release (to_be_freed.getD i 0))) ?_
      refine List.map_congr_left fun j _ => ?_
      simp only [Function.comp_apply, Nat.succ_eq_add_one]
      have h12 : i + 1 + j = i + (j + 1) := by omega
      rw [h12]

theorem releaseLoop_all_ok (releaseMLValue : Nat → Status) (to_be_freed : List Nat) :
    ∀ n i t, t + 1 - i = n →
      (∀ j, i ≤ j → j ≤ t → releaseMLValue (to_be_freed.getD j 0) = .ok) →
      releaseLoop releaseMLValue to_be_freed i t =
        (.ok, (List.range n).map fun j => Event.release (to_be_freed.getD (i + j) 0)) := by
  intro n i t hn hok
  rw [releaseLoop, hn]
  exact releaseLoopFuel_all_ok releaseMLValue to_be_freed n i
    (fun j hj hj2 => hok j hj (by omega))

theorem releaseLoopFuel_first_error (releaseMLValue : Nat → Status) (to_be_freed : List Nat) :
    ∀ n i, ∀ m, i ≤ m → m < i + n →
      (∀ j, i ≤ j → j < m → releaseMLValue (to_be_freed.getD j 0) = .ok) →
      ∀ c d msg, releaseMLValue (to_be_freed.getD m 0) = .error c d msg →
      (releaseLoopFuel releaseMLValue to_be_freed n i).1 = .error c d msg := by
  intro n
  induction n with
  | zero => intro i m him hmn _ c d msg _; omega
  | succ q ih =>
      intro i m him hmn hok c d msg herr
      rw [releaseLoopFuel]
      simp only []
      rcases Nat.eq_or_lt_of_le him with rfl | hlt
      · rw [herr]
      · rw [hok i le_rfl hlt]
        exact ih (i + 1) m (by omega) (by omega)
          (fun j hj hj2 => hok j (by omega) hj2) c d msg herr

theorem releaseLoop_first_error (releaseMLValue : Nat → Status) (to_be_freed : List Nat) :
    ∀ n i t, t + 1 - i = n → ∀ m, i ≤ m → m ≤ t →
      (∀ j, i ≤ j → j < m → releaseMLValue (to_be_freed.getD j 0) = .ok) →
      ∀ c d msg, releaseMLValue (to_be_freed.getD m 0) = .error c d msg →
      (releaseLoop releaseMLValue to_be_freed i t).1 = .error c d msg := by
  intro n i t hn m him hmt hok c d msg herr
  rw [releaseLoop]
  exact releaseLoopFuel_first_error releaseMLValue to_be_freed (t + 1 - i) i m him
    (by omega) hok c d msg herr

/-! ### The step body -/

theorem stepRun_kernel_none {env : Env} {p : NodeExecutionPlan}
    (hk : env.getKernel p.node_index = none) :
    stepRun env p =
      (.error ONNXRUNTIME FAIL
        ("Got nullptr from GetKernel for node: " ++ env.graphNodeName p.node_index), []) := by
  simp [stepRun, hk]

theorem stepRun_compute_ok {env : Env} {p : NodeExecutionPlan} {k : Kernel}
    (hk : env.getKernel p.node_index = some k) (hc : k.compute = .ok) :
    stepRun env p =
      ((ReleaseNodeMLValues env p).1,
        (if env.nodeHasFence p.node_index then
            beforeFencePhase k (env.opKernelContext p.node_index) k.execQueueId
          else []) ++ [.compute p.node_index] ++
          (if env.nodeHasFence p.node_index then
            afterFencePhase (env.opKernelContext p.node_index) k.execQueueId
          else []) ++ (ReleaseNodeMLValues env p).2) := by
  simp [stepRun, hk, hc]

theorem stepRun_compute_error {env : Env} {p : NodeExecutionPlan} {k : Kernel}
    {c d : Nat} {m : String}
    (hk : env.getKernel p.node_index = some k) (hc : k.compute = .error c d m) :
    stepRun env p =
      (.error c d
        ("Non-zero status code returned while running Node: " ++ k.nodeName ++
          " Status Message: " ++ m),
        (if env.nodeHasFence p.node_index then
            beforeFencePhase k (env.opKernelContext p.node_index) k.execQueueId
          else []) ++ [.compute p.node_index]) := by
  simp [stepRun, hk, hc]

theorem stepRun_ok_resolves {env : Env} {p : NodeExecutionPlan}
    (h : (stepRun env p).1 = .ok) :
    ∃ k, env.getKernel p.node_index = some k ∧ k.compute = .ok := by
  cases hk : env.getKernel p.node_index with
  | none => rw [stepRun_kernel_none hk] at h; exact absurd h (by simp)
  | some k =>
      cases hc : k.compute with
      | ok => exact ⟨k, rfl, hc⟩
      | error c d m => rw [stepRun_compute_error hk hc] at h; exact absurd h (by simp)

theorem stepRun_events {env : Env} {p : NodeExecutionPlan} :
    ∀ e ∈ (stepRun env p).2, isStepEvent e = true := by
  intro e he
  cases hk : env.getKernel p.node_index with
  | none => rw [stepRun_kernel_none hk] at he; simp at he
  | some k =>
      cases hc : k.compute with
      | ok =>
          rw [stepRun_compute_ok hk hc] at he
          rcases List.mem_append.1 he with he' | he'
          · rcases List.mem_append.1 he' with he'' | he''
            · rcases List.mem_append.1 he'' with h3 | h3
              · split at h3
                · exact (beforeFencePhase_events e h3).2.2.2
                · simp at h3
              · rw [List.mem_singleton] at h3; subst h3; rfl
            · split at he''
              · exact (afterFencePhase_events e he'').2.2.2
              · simp at he''
          · exact (releaseLoop_events _ _ _ _ _ rfl e he').2.2
      | error c d m =>
          rw [stepRun_compute_error hk hc] at he
          rcases List.mem_append.1 he with he' | he'
          · split at he'
            · exact (beforeFencePhase_events e he').2.2.2
            · simp at he'
          · rw [List.mem_singleton] at he'; subst he'; rfl

/-! ### `Compute` invocations recorded by a step -/

theorem computeEvents_append (a b : List Event) :
    computeEvents (a ++ b) = computeEvents a ++ computeEvents b :=
  List.filterMap_append a b eventNode

theorem computeEvents_eq_nil {l : List Event} (h : ∀ e ∈ l, eventNode e = none) :
    computeEvents l = [] :=
  List.filterMap_eq_nil_iff.2 h

theorem computeEvents_stepRun {env : Env} {p : NodeExecutionPlan} {k : Kernel}
    (hk : env.getKernel p.node_index = some k) :
    computeEvents (stepRun env p).2 = [p.node_index] := by
  cases hc : k.compute with
  | ok =>
      rw [stepRun_compute_ok hk hc]
      rw [computeEvents_append, computeEvents_append, computeEvents_append]
      rw [computeEvents_eq_nil (l := if env.nodeHasFence p.node_index then
            beforeFencePhase k (env.opKernelContext p.node_index) k.execQueueId else [])]
      · rw [computeEvents_eq_nil (l := if env.nodeHasFence p.node_index then
              afterFencePhase (env.opKernelContext p.node_index) k.execQueueId else [])]
        · rw [computeEvents_eq_nil (l := (ReleaseNodeMLValues env p).2)]
          · rfl
          · exact fun e he => (releaseLoop_events _ _ _ _ _ rfl e he).2.1
        · intro e he
          split at he
          · exact (afterFencePhase_events e he).2.2.1
          · simp at he
      · intro e he
        split at he
        · exact (beforeFencePhase_events e he).2.2.1
        · simp at he
  | error c d m =>
      rw [stepRun_compute_error hk hc]
      rw [computeEvents_append]
      rw [computeEvents_eq_nil (l := if env.nodeHasFence p.node_index then
            beforeFencePhase k (env.opKernelContext p.node_index) k.execQueueId else [])]
      · rfl
      · intro e he
        split at he
        · exact (beforeFencePhase_events e he).2.2.1
        · simp at he

theorem computeEvents_stepsTrace {env : Env} :
    ∀ steps : List NodeExecutionPlan,
      (∀ p ∈ steps, (stepRun env p).1 = .ok) →
      computeEvents (stepsTrace env steps) =
        steps.map fun p => p.node_index := by
  intro steps
  induction steps with
  | nil => intro _; rfl
  | cons p rest ih =>
      intro h
      rcases stepRun_ok_resolves (h p (List.mem_cons_self p rest)) with ⟨k, hk, _⟩
      rw [stepsTrace, computeEvents_append, computeEvents_stepRun hk,
        ih fun q hq => h q (List.mem_cons_of_mem p hq)]
      rfl

/-! ### The main loop -/

theorem runSteps_append (env : Env) :
    ∀ (pre rest : List NodeExecutionPlan) (i : Nat),
      (∀ p ∈ pre, (stepRun env p).1 = .ok) →
      (∀ j, j < pre.length → env.terminate_flag (i + j) = false) →
      runSteps env (pre ++ rest) i =
        ((runSteps env rest (i + pre.length)).1,
          stepsTrace env pre ++ (runSteps env rest (i + pre.length)).2) := by
  intro pre
  induction pre with
  | nil => intro rest i _ _; simp [stepsTrace]
  | cons p pre ih =>
      intro rest i hok hterm
      have ht0 : env.terminate_flag i = false := by
        have := hterm 0 (by simp)
        simpa using this
      have hpok : (stepRun env p).1 = .ok := hok p (List.mem_cons_self p pre)
      rw [List.cons_append, runSteps, ht0]
      simp only [Bool.false_eq_true, if_false]
      rw [hpok]
      simp only [Status.isOK, if_true]
      rw [ih rest (i + 1) (fun q hq => hok q (List.mem_cons_of_mem p hq))
        (fun j hj => by
          have := hterm (j + 1) (by simpa using Nat.succ_lt_succ hj)
          simpa [Nat.add_assoc, Nat.add_comm 1 j] using this)]
      have harith : i + 1 + pre.length = i + (pre.length + 1) := by omega
      rw [harith]
      simp [stepsTrace, List.append_assoc]

theorem runSteps_all_ok (env : Env) (steps : List NodeExecutionPlan) (i : Nat)
    (hok : ∀ p ∈ steps, (stepRun env p).1 = .ok)
    (hterm : ∀ j, j < steps.length → env.terminate_flag (i + j) = false) :
    runSteps env steps i = (.ok, stepsTrace env steps) := by
  have := runSteps_append env steps [] i hok hterm
  simpa [runSteps] using this

theorem runSteps_events (env : Env) :
    ∀ (steps : List NodeExecutionPlan) (i : Nat),
      ∀ e ∈ (runSteps env steps i).2, isStepEvent e = true := by
  intro steps
  induction steps with
  | nil => intro i e he; simp [runSteps] at he
  | cons p rest ih =>
      intro i e he
      rw [runSteps] at he
      by_cases ht : env.terminate_flag i
      · rw [if_pos ht] at he; simp at he
      · rw [if_neg ht] at he
        by_cases hok : (stepRun env p).1.isOK
        · rw [if_pos hok] at he
          rcases List.mem_append.1 he with h | h
          · exact stepRun_events e h
          · exact ih (i + 1) e h
        · rw [if_neg hok] at he
          exact stepRun_events e he

/-! ### `Execute` branch characterizations -/

theorem Execute_loop_error {env : Env} {c d : Nat} {m : String} {tr : List Event}
    (h : runSteps env env.execution_plan 0 = (.error c d m, tr)) :
    Execute env = (.error c d m, tr) := by
  simp [Execute, h]

theorem Execute_getOutputs_error {env : Env} {c d : Nat} {m : String} {tr : List Event}
    (h : runSteps env env.execution_plan 0 = (.ok, tr))
    (hout : env.getOutputsStatus = .error c d m) :
    Execute env = (.error c d m, tr ++ [.getOutputs]) := by
  simp [Execute, h, hout]

theorem Execute_no_planner {env : Env} {tr : List Event}
    (h : runSteps env env.execution_plan 0 = (.ok, tr))
    (hout : env.getOutputsStatus = .ok)
    (hmp : env.hasMemoryPatternPlanner = false) :
    Execute env = (.ok, tr ++ [.getOutputs]) := by
  simp [Execute, h, hout, hmp]

theorem Execute_not_all_tensors {env : Env} {tr : List Event}
    (h : runSteps env env.execution_plan 0 = (.ok, tr))
    (hout : env.getOutputsStatus = .ok)
    (hmp : env.hasMemoryPatternPlanner = true)
    (hall : (env.feeds.all fun feed => feed.isTensor) = false) :
    Execute env = (.ok, tr ++ [.getOutputs]) := by
  simp [Execute, h, hout, hmp, hall]

theorem Execute_generate_error {env : Env} {c d : Nat} {m : String} {tr : List Event}
    (h : runSteps env env.execution_plan 0 = (.ok, tr))
    (hout : env.getOutputsStatus = .ok)
    (hmp : env.hasMemoryPatternPlanner = true)
    (hall : (env.feeds.all fun feed => feed.isTensor) = true)
    (hgen : env.generatePatternsStatus = .error c d m) :
    Execute env = (.error c d m, tr ++ [.getOutputs, .generatePatterns]) := by
  simp [Execute, h, hout, hmp, hall, hgen]

theorem Execute_update_error {env : Env} {c d : Nat} {m : String} {tr : List Event}
    (h : runSteps env env.execution_plan 0 = (.ok, tr))
    (hout : env.getOutputsStatus = .ok)
    (hmp : env.hasMemoryPatternPlanner = true)
    (hall : (env.feeds.all fun feed => feed.isTensor) = true)
    (hgen : env.generatePatternsStatus = .ok)
    (hupd : env.updateMemoryPatternGroupCacheStatus = .error c d m) :
    Execute env =
      (.error c d m,
        tr ++ [.getOutputs, .generatePatterns,
          .updateCache (env.feeds.map fun feed => feed.shape)]) := by
  simp [Execute, h, hout, hmp, hall, hgen, hupd]

theorem Execute_full_ok {env : Env} {tr : List Event}
    (h : runSteps env env.execution_plan 0 = (.ok, tr))
    (hout : env.getOutputsStatus = .ok)
    (hmp : env.hasMemoryPatternPlanner = true)
    (hall : (env.feeds.all fun feed => feed.isTensor) = true)
    (hgen : env.generatePatternsStatus = .ok)
    (hupd : env.updateMemoryPatternGroupCacheStatus = .ok) :
    Execute env =
      (.ok,
        tr ++ [.getOutputs, .generatePatterns,
          .updateCache (env.feeds.map fun feed => feed.shape)]) := by
  simp [Execute, h, hout, hmp, hall, hgen, hupd]

theorem not_mem_runSteps_of_not_step (env : Env) (steps : List NodeExecutionPlan)
    (i : Nat) (e : Event) (h : isStepEvent e = false) :
    e ∉ (runSteps env steps i).2 := by
  intro hm
  have := runSteps_events env steps i e hm
  rw [h] at this
  exact Bool.false_ne_true this

/-! ### Claims -/

/-- C1 (amended): for every plan with N steps in which no step fails (every
kernel resolves, every `Compute` and every release returns OK) and the
terminate flag is never observed set, `Execute` invokes each step's kernel
`Compute` exactly once, in plan order 0..N-1; and it returns a success
status provided the post-loop output gathering and, when a memory-pattern
group is attempted (pattern planner present and all feeds tensors), the
pattern generation and cache update also succeed. -/
theorem execute_order_and_success (env : Env)
    (hok : ∀ p ∈ env.execution_plan, (stepRun env p).1 = Status.ok)
    (hterm : ∀ j, j < env.execution_plan.length → env.terminate_flag j = false)
    (hout : env.getOutputsStatus = Status.ok)
    (hpat : env.hasMemoryPatternPlanner = true →
      (env.feeds.all fun feed => feed.isTensor) = true →
      env.generatePatternsStatus = Status.ok ∧
        env.updateMemoryPatternGroupCacheStatus = Status.ok) :
    (Execute env).1 = Status.ok ∧
      computeEvents (Execute env).2 = env.execution_plan.map fun p => p.node_index := by
  have hloop := runSteps_all_ok env env.execution_plan 0 hok
    (fun j hj => by rw [Nat.zero_add]; exact hterm j hj)
  have hcomp : computeEvents (stepsTrace env env.execution_plan) =
      env.execution_plan.map fun p => p.node_index :=
    computeEvents_stepsTrace env.execution_plan hok
  cases hmp : env.hasMemoryPatternPlanner with
  | false =>
      rw [Execute_no_planner hloop hout hmp]
      exact ⟨rfl, by rw [computeEvents_append, hcomp]; simp [computeEvents, eventNode]⟩
  | true =>
      cases hall : (env.feeds.all fun feed => feed.isTensor) with
      | false =>
          rw [Execute_not_all_tensors hloop hout hmp hall]
          exact ⟨rfl, by rw [computeEvents_append, hcomp]; simp [computeEvents, eventNode]⟩
      | true =>
          rcases hpat hmp hall with ⟨hgen, hupd⟩
          rw [Execute_full_ok hloop hout hmp hall hgen hupd]
          exact ⟨rfl, by rw [computeEvents_append, hcomp]; simp [computeEvents, eventNode]⟩

/-- C7: the caller-visible output gathering (`frame.GetOutputs(fetches)`,
the only write to the caller's sinks in this function) happens in a run if
and only if the step loop completed with an OK status; on any step failure
(terminate flag, null kernel, `Compute` failure, release failure) the sinks
are never written. -/
theorem execute_outputs_only_after_loop_ok (env : Env) :
    Event.getOutputs ∈ (Execute env).2 ↔
      (runSteps env env.execution_plan 0).1 = Status.ok := by
  cases hl : runSteps env env.execution_plan 0 with
  | mk s tr =>
      cases s with
      | ok =>
          have hmem : Event.getOutputs ∈ (Execute env).2 := by
            cases hout : env.getOutputsStatus with
            | error c d m => rw [Execute_getOutputs_error hl hout]; simp
            | ok =>
                cases hmp : env.hasMemoryPatternPlanner with
                | false => rw [Execute_no_planner hl hout hmp]; simp
                | true =>
                    cases hall : (env.feeds.all fun feed => feed.isTensor) with
                    | false => rw [Execute_not_all_tensors hl hout hmp hall]; simp
                    | true =>
                        cases hgen : env.generatePatternsStatus with
                        | error c d m =>
                            rw [Execute_generate_error hl hout hmp hall hgen]; simp
                        | ok =>
                            cases hupd : env.updateMemoryPatternGroupCacheStatus with
                            | error c d m =>
                                rw [Execute_update_error hl hout hmp hall hgen hupd]; simp
                            | ok => rw [Execute_full_ok hl hout hmp hall hgen hupd]; simp
          simp [hmem, hl]
      | error c d m =>
          rw [Execute_loop_error hl]
          simp only [Prod.fst, Prod.snd]
          constructor
          · intro hm
            exact absurd
              (show Event.getOutputs ∈ (runSteps env env.execution_plan 0).2 by
                rw [hl]; exact hm)
              (not_mem_runSteps_of_not_step env env.execution_plan 0 Event.getOutputs rfl)
          · intro h; cases h

theorem runSteps_split (env : Env) (pre rest : List NodeExecutionPlan)
    (hplan : env.execution_plan = pre ++ rest)
    (hok : ∀ q ∈ pre, (stepRun env q).1 = Status.ok)
    (hterm : ∀ j, j < pre.length → env.terminate_flag j = false) :
    runSteps env env.execution_plan 0 =
      ((runSteps env rest pre.length).1,
        stepsTrace env pre ++ (runSteps env rest pre.length).2) := by
  rw [hplan]
  have := runSteps_append env pre rest 0 hok
    (fun j hj => by rw [Nat.zero_add]; exact hterm j hj)
  simpa using this

theorem runSteps_head_fail (env : Env) (p : NodeExecutionPlan)
    (post : List NodeExecutionPlan) {i : Nat}
    (hterm : env.terminate_flag i = false)
    (hfail : (stepRun env p).1.isOK = false) :
    runSteps env (p :: post) i = ((stepRun env p).1, (stepRun env p).2) := by
  rw [runSteps, hterm]
  simp [hfail]

theorem runSteps_head_terminate (env : Env) (p : NodeExecutionPlan)
    (post : List NodeExecutionPlan) {i : Nat}
    (hterm : env.terminate_flag i = true) :
    runSteps env (p :: post) i = (terminateStatus, []) := by
  rw [runSteps, hterm]
  simp

/-- C2: if every step before position k succeeds and the terminate flag is
never observed set up to k, and step k's kernel `Compute` returns a non-OK
status, then kernels of steps 0..k-1 were each invoked exactly once, step
k's kernel exactly once, later kernels never (the compute trace is exactly
the node indices of steps 0..k), and the returned status keeps the kernel's
original error category and code while its message contains step k's node
name verbatim. -/
theorem execute_abort_on_compute_failure (env : Env)
    (pre post : List NodeExecutionPlan) (p : NodeExecutionPlan) (k : Kernel)
    (c d : Nat) (m : String)
    (hplan : env.execution_plan = pre ++ p :: post)
    (hok : ∀ q ∈ pre, (stepRun env q).1 = Status.ok)
    (hterm : ∀ j, j ≤ pre.length → env.terminate_flag j = false)
    (hk : env.getKernel p.node_index = some k)
    (hc : k.compute = Status.error c d m) :
    (Execute env).1 =
        Status.error c d
          ("Non-zero status code returned while running Node: " ++ k.nodeName ++
            " Status Message: " ++ m) ∧
      computeEvents (Execute env).2 =
        (pre.map fun q => q.node_index) ++ [p.node_index] ∧
      ∃ a b, Status.errorMessage (Execute env).1 = a ++ k.nodeName ++ b := by
  have hsplit := runSteps_split env pre (p :: post) hplan hok
    (fun j hj => hterm j (Nat.le_of_lt hj))
  have hstat : (stepRun env p).1 =
      Status.error c d
        ("Non-zero status code returned while running Node: " ++ k.nodeName ++
          " Status Message: " ++ m) := by
    rw [stepRun_compute_error hk hc]
  have hhead := runSteps_head_fail env p post
    (hterm pre.length le_rfl) (by rw [hstat]; rfl)
  have hloop : runSteps env env.execution_plan 0 =
      (Status.error c d
        ("Non-zero status code returned while running Node: " ++ k.nodeName ++
          " Status Message: " ++ m),
        stepsTrace env pre ++ (stepRun env p).2) := by
    rw [hsplit, hhead, hstat]
  rw [Execute_loop_error hloop]
  refine ⟨rfl, ?_, ?_⟩
  · rw [computeEvents_append, computeEvents_stepsTrace pre hok, computeEvents_stepRun hk]
  · exact ⟨"Non-zero status code returned while running Node: ",
      " Status Message: " ++ m, String.append_assoc _ _ _⟩

/-- C8: if every step before position k succeeds, the flag stays clear, and
the kernel lookup for step k's node yields null, `Execute` returns the fatal
`ONNXRUNTIME`/`FAIL` status whose message names that node, the trace is
exactly that of steps 0..k-1 (no further kernel runs, and the lookup is a
single call never retried), and the message contains the node's name. -/
theorem execute_null_kernel_fatal (env : Env)
    (pre post : List NodeExecutionPlan) (p : NodeExecutionPlan)
    (hplan : env.execution_plan = pre ++ p :: post)
    (hok : ∀ q ∈ pre, (stepRun env q).1 = Status.ok)
    (hterm : ∀ j, j ≤ pre.length → env.terminate_flag j = false)
    (hk : env.getKernel p.node_index = none) :
    (Execute env).1 =
        Status.error ONNXRUNTIME FAIL
          ("Got nullptr from GetKernel for node: " ++ env.graphNodeName p.node_index) ∧
      (Execute env).2 = stepsTrace env pre ∧
      computeEvents (Execute env).2 = (pre.map fun q => q.node_index) ∧
      ∃ a, Status.errorMessage (Execute env).1 = a ++ env.graphNodeName p.node_index := by
  have hsplit := runSteps_split env pre (p :: post) hplan hok
    (fun j hj => hterm j (Nat.le_of_lt hj))
  have hstep := stepRun_kernel_none hk
  have hhead := runSteps_head_fail env p post
    (hterm pre.length le_rfl) (by rw [hstep]; rfl)
  have hloop : runSteps env env.execution_plan 0 =
      (Status.error ONNXRUNTIME FAIL
        ("Got nullptr from GetKernel for node: " ++ env.graphNodeName p.node_index),
        stepsTrace env pre) := by
    rw [hsplit, hhead, hstep]
    simp
  rw [Execute_loop_error hloop]
  exact ⟨rfl, rfl, computeEvents_stepsTrace pre hok,
    ⟨"Got nullptr from GetKernel for node: ", rfl⟩⟩

/-- C5: the terminate flag is polled at the start of each step before any
other work; if steps before position i succeed with the flag clear and the
poll at step i observes the flag set, `Execute` returns the fixed
cancellation status immediately, the trace is exactly that of steps 0..i-1
(each earlier step ran to completion, no step ≥ i starts), and that status
is distinct from every kernel-compute-failure status and every null-kernel
status the function can produce. -/
theorem execute_cancellation (env : Env)
    (pre post : List NodeExecutionPlan) (p : NodeExecutionPlan)
    (hplan : env.execution_plan = pre ++ p :: post)
    (hok : ∀ q ∈ pre, (stepRun env q).1 = Status.ok)
    (hterm : ∀ j, j < pre.length → env.terminate_flag j = false)
    (hT : env.terminate_flag pre.length = true) :
    (Execute env).1 = terminateStatus ∧
      (Execute env).2 = stepsTrace env pre ∧
      computeEvents (Execute env).2 = pre.map (fun q => q.node_index) ∧
      (∀ c d nm msg, terminateStatus ≠ Status.error c d
        ("Non-zero status code returned while running Node: " ++ nm ++
          " Status Message: " ++ msg)) ∧
      (∀ c d nm, terminateStatus ≠ Status.error c d
        ("Got nullptr from GetKernel for node: " ++ nm)) := by
  have hsplit := runSteps_split env pre (p :: post) hplan hok hterm
  have hhead := runSteps_head_terminate env p post hT
  have hloop : runSteps env env.execution_plan 0 =
      (Status.error ONNXRUNTIME FAIL terminateMessage, stepsTrace env pre) := by
    rw [hsplit, hhead]
    simp [terminateStatus]
  rw [Execute_loop_error hloop]
  refine ⟨rfl, rfl, computeEvents_stepsTrace pre hok, ?_, ?_⟩
  · intro c d nm msg h
    have hm : terminateMessage =
        "Non-zero status code returned while running Node: " ++ nm ++
          " Status Message: " ++ msg := by
      simp only [terminateStatus, Status.error.injEq] at h
      exact h.2.2
    have hlen := congrArg String.length hm
    rw [String.length_append, String.length_append, String.length_append] at hlen
    have h1 : terminateMessage.length = 48 := by decide
    have h2 : ("Non-zero status code returned while running Node: ").length = 50 := by decide
    omega
  · intro c d nm h
    have hm : terminateMessage = "Got nullptr from GetKernel for node: " ++ nm := by
      simp only [terminateStatus, Status.error.injEq] at h
      exact h.2.2
    have hdata := congrArg String.data hm
    rw [String.data_append] at hdata
    have htake : terminateMessage.data.take 37 =
        ("Got nullptr from GetKernel for node: ").data := by
      rw [hdata]
      have hl : ("Got nullptr from GetKernel for node: ").data.length = 37 := by decide
      rw [← hl, List.take_left]
    exact absurd htake (by decide)

/-- C3: for a step whose plan entry has the fence flag set and whose kernel
resolves, the step's trace decomposes as before-transitions, then the single
`Compute`, then (only if `Compute` succeeded) after-transitions, then the
step's releases; every fenced input, implicit input and output gets a
before-transition before `Compute` and, on success, an after-transition
before any release; and every fence transition of the step carries the
kernel's execution queue id in both phases. -/
theorem step_fence_ordering (env : Env) (p : NodeExecutionPlan) (k : Kernel)
    (hk : env.getKernel p.node_index = some k)
    (hf : env.nodeHasFence p.node_index = true) :
    (k.compute = Status.ok →
      ∃ bs as rs, (stepRun env p).2 = bs ++ [Event.compute p.node_index] ++ as ++ rs ∧
        (∀ e ∈ bs, isBeforeFence e = true ∧ eventQueue e = some k.execQueueId) ∧
        (∀ e ∈ as, isAfterFence e = true ∧ eventQueue e = some k.execQueueId) ∧
        (∀ e ∈ rs, isRelease e = true) ∧
        (∀ j f, j < (env.opKernelContext p.node_index).inputCount →
          (env.opKernelContext p.node_index).inputFence j = some f →
          (∃ prov, Event.beforeInputFence f prov k.execQueueId ∈ bs) ∧
            Event.afterInputFence f k.execQueueId ∈ as) ∧
        (∀ j f, j < (env.opKernelContext p.node_index).implicitInputCount →
          (env.opKernelContext p.node_index).implicitInputFence j = some f →
          (∃ prov, Event.beforeInputFence f prov k.execQueueId ∈ bs) ∧
            Event.afterInputFence f k.execQueueId ∈ as) ∧
        (∀ j f, j < (env.opKernelContext p.node_index).outputCount →
          (env.opKernelContext p.node_index).outputFence j = some f →
          Event.beforeOutputFence f k.providerType k.execQueueId ∈ bs ∧
            Event.afterOutputFence f k.execQueueId ∈ as)) ∧
    (∀ c d m, k.compute = Status.error c d m →
      ∃ bs, (stepRun env p).2 = bs ++ [Event.compute p.node_index] ∧
        (∀ e ∈ bs, isBeforeFence e = true ∧ eventQueue e = some k.execQueueId)) := by
  constructor
  · intro hc
    rw [stepRun_compute_ok hk hc, if_pos hf, if_pos hf]
    refine ⟨beforeFencePhase k (env.opKernelContext p.node_index) k.execQueueId,
      afterFencePhase (env.opKernelContext p.node_index) k.execQueueId,
      (ReleaseNodeMLValues env p).2, rfl, ?_, ?_, ?_, ?_, ?_, ?_⟩
    · exact fun e he => ⟨(beforeFencePhase_events e he).1, (beforeFencePhase_events e he).2.1⟩
    · exact fun e he => ⟨(afterFencePhase_events e he).1, (afterFencePhase_events e he).2.1⟩
    · exact fun e he => (releaseLoop_events _ _ _ _ _ rfl e he).1
    · intro j f hj hfj
      constructor
      · exact ⟨_, List.mem_append.2 (Or.inl (List.mem_append.2 (Or.inl
          (mem_beforeInputFences.2 ⟨j, hj, f, hfj, rfl⟩))))⟩
      · exact List.mem_append.2 (Or.inl (List.mem_append.2 (Or.inl
          (mem_afterInputFences.2 ⟨j, hj, f, hfj, rfl⟩))))
    · intro j f hj hfj
      constructor
      · exact ⟨_, List.mem_append.2 (Or.inl (List.mem_append.2 (Or.inr
          (mem_beforeImplicitInputFences.2 ⟨j, hj, f, hfj, rfl⟩))))⟩
      · exact List.mem_append.2 (Or.inl (List.mem_append.2 (Or.inr
          (mem_afterImplicitInputFences.2 ⟨j, hj, f, hfj, rfl⟩))))
    · intro j f hj hfj
      constructor
      · exact List.mem_append.2 (Or.inr (mem_beforeOutputFences.2 ⟨j, hj, f, hfj, rfl⟩))
      · exact List.mem_append.2 (Or.inr (mem_afterOutputFences.2 ⟨j, hj, f, hfj, rfl⟩))
  · intro c d m hc
    rw [stepRun_compute_error hk hc, if_pos hf]
    exact ⟨beforeFencePhase k (env.opKernelContext p.node_index) k.execQueueId, rfl,
      fun e he => ⟨(beforeFencePhase_events e he).1, (beforeFencePhase_events e he).2.1⟩⟩

/-- C9: in the before-use phase of a fenced step, every fenced input and
implicit input whose declared memory type at that position is
`OrtMemTypeCPUInput` has its before-transition invoked with the CPU
execution provider instead of the node's; a fenced position not so declared
uses the node's provider; fenced outputs always use the node's provider
(every before-output transition in the step's trace carries it); and every
before-input transition in the step's trace arises from some input or
implicit-input position with exactly this provider selection. -/
theorem step_fence_cpu_input_override (env : Env) (p : NodeExecutionPlan) (k : Kernel)
    (hk : env.getKernel p.node_index = some k)
    (hf : env.nodeHasFence p.node_index = true) :
    (∀ j f, j < (env.opKernelContext p.node_index).inputCount →
      (env.opKernelContext p.node_index).inputFence j = some f →
      k.inputMemTypeCpuInput j = true →
      Event.beforeInputFence f kCpuExecutionProvider k.execQueueId ∈ (stepRun env p).2) ∧
    (∀ j f, j < (env.opKernelContext p.node_index).inputCount →
      (env.opKernelContext p.node_index).inputFence j = some f →
      k.inputMemTypeCpuInput j = false →
      Event.beforeInputFence f k.providerType k.execQueueId ∈ (stepRun env p).2) ∧
    (∀ j f, j < (env.opKernelContext p.node_index).implicitInputCount →
      (env.opKernelContext p.node_index).implicitInputFence j = some f →
      k.inputMemTypeCpuInput j = true →
      Event.beforeInputFence f kCpuExecutionProvider k.execQueueId ∈ (stepRun env p).2) ∧
    (∀ j f, j < (env.opKernelContext p.node_index).outputCount →
      (env.opKernelContext p.node_index).outputFence j = some f →
      Event.beforeOutputFence f k.providerType k.execQueueId ∈ (stepRun env p).2) ∧
    (∀ f prov q, Event.beforeOutputFence f prov q ∈ (stepRun env p).2 →
      prov = k.providerType) ∧
    (∀ f prov q, Event.beforeInputFence f prov q ∈ (stepRun env p).2 →
      (∃ j, j < (env.opKernelContext p.node_index).inputCount ∧
        (env.opKernelContext p.node_index).inputFence j = some f ∧
        prov = (if k.inputMemTypeCpuInput j then kCpuExecutionProvider
          else k.providerType)) ∨
      (∃ j, j < (env.opKernelContext p.node_index).implicitInputCount ∧
        (env.opKernelContext p.node_index).implicitInputFence j = some f ∧
        prov = (if k.inputMemTypeCpuInput j then kCpuExecutionProvider
          else k.providerType))) := by
  have hbefore : ∀ e, e ∈ beforeFencePhase k (env.opKernelContext p.node_index)
      k.execQueueId → e ∈ (stepRun env p).2 := by
    intro e he
    cases hc : k.compute with
    | ok =>
        rw [stepRun_compute_ok hk hc, if_pos hf]
        exact List.mem_append.2 (Or.inl (List.mem_append.2 (Or.inl
          (List.mem_append.2 (Or.inl he)))))
    | error c d m =>
        rw [stepRun_compute_error hk hc, if_pos hf]
        exact List.mem_append.2 (Or.inl he)
  have hsrc : ∀ e, e ∈ (stepRun env p).2 →
      (e ∈ beforeFencePhase k (env.opKernelContext p.node_index) k.execQueueId ∨
        e = Event.compute p.node_index ∨
        e ∈ afterFencePhase (env.opKernelContext p.node_index) k.execQueueId ∨
        isRelease e = true) := by
    intro e he
    cases hc : k.compute with
    | ok =>
        rw [stepRun_compute_ok hk hc, if_pos hf, if_pos hf] at he
        rcases List.mem_append.1 he with h1 | h1
        · rcases List.mem_append.1 h1 with h2 | h2
          · rcases List.mem_append.1 h2 with h3 | h3
            · exact Or.inl h3
            · exact Or.inr (Or.inl (List.mem_singleton.1 h3))
          · exact Or.inr (Or.inr (Or.inl h2))
        · exact Or.inr (Or.inr (Or.inr (releaseLoop_events _ _ _ _ _ rfl e h1).1))
    | error c d m =>
        rw [stepRun_compute_error hk hc, if_pos hf] at he
        rcases List.mem_append.1 he with h1 | h1
        · exact Or.inl h1
        · exact Or.inr (Or.inl (List.mem_singleton.1 h1))
  refine ⟨?_, ?_, ?_, ?_, ?_, ?_⟩
  · intro j f hj hfj hcpu
    refine hbefore _ (List.mem_append.2 (Or.inl (List.mem_append.2 (Or.inl
      (mem_beforeInputFences.2 ⟨j, hj, f, hfj, ?_⟩)))))
    rw [hcpu, if_pos rfl]
  · intro j f hj hfj hcpu
    refine hbefore _ (List.mem_append.2 (Or.inl (List.mem_append.2 (Or.inl
      (mem_beforeInputFences.2 ⟨j, hj, f, hfj, ?_⟩)))))
    rw [hcpu]
    simp
  · intro j f hj hfj hcpu
    refine hbefore _ (List.mem_append.2 (Or.inl (List.mem_append.2 (Or.inr
      (mem_beforeImplicitInputFences.2 ⟨j, hj, f, hfj, ?_⟩)))))
    rw [hcpu, if_pos rfl]
  · intro j f hj hfj
    exact hbefore _ (List.mem_append.2 (Or.inr
      (mem_beforeOutputFences.2 ⟨j, hj, f, hfj, rfl⟩)))
  · intro f prov q hmem
    rcases hsrc _ hmem with h | h | h | h
    · rcases List.mem_append.1 h with h1 | h1
      · rcases List.mem_append.1 h1 with h2 | h2
        · rcases mem_beforeInputFences.1 h2 with ⟨j, _, f2, _, heq⟩
          cases heq
        · rcases mem_beforeImplicitInputFences.1 h2 with ⟨j, _, f2, _, heq⟩
          cases heq
      · rcases mem_beforeOutputFences.1 h1 with ⟨j, _, f2, _, heq⟩
        cases heq
        rfl
    · cases h
    · rcases afterFencePhase_events _ h with ⟨hA, _, _, _⟩
      cases hA
    · cases h
  · intro f prov q hmem
    rcases hsrc _ hmem with h | h | h | h
    · rcases List.mem_append.1 h with h1 | h1
      · rcases List.mem_append.1 h1 with h2 | h2
        · rcases mem_beforeInputFences.1 h2 with ⟨j, hj, f2, hf2, heq⟩
          cases heq
          exact Or.inl ⟨j, hj, hf2, rfl⟩
        · rcases mem_beforeImplicitInputFences.1 h2 with ⟨j, hj, f2, hf2, heq⟩
          cases heq
          exact Or.inr ⟨j, hj, hf2, rfl⟩
      · rcases mem_beforeOutputFences.1 h1 with ⟨j, _, f2, _, heq⟩
        cases heq
    · cases h
    · rcases afterFencePhase_events _ h with ⟨hA, _, _, _⟩
      cases hA
    · cases h

/-- C4: `ReleaseNodeMLValues` releases exactly the slot indices stored at
positions `free_from_index..free_to_index` (inclusive) of the plan's shared
`to_be_freed` sequence, in ascending position order, when every release
succeeds; and if the release at some position fails (all earlier positions
of the range succeeding), `Execute` aborts immediately returning that
failure status. -/
theorem release_range_and_failure (env : Env) (p : NodeExecutionPlan)
    (pre post : List NodeExecutionPlan) (k : Kernel) :
    ((∀ j, p.free_from_index ≤ j → j ≤ p.free_to_index →
        env.releaseMLValue (env.to_be_freed.getD j 0) = Status.ok) →
      ReleaseNodeMLValues env p =
        (Status.ok,
          (List.range (p.free_to_index + 1 - p.free_from_index)).map
            fun j => Event.release (env.to_be_freed.getD (p.free_from_index + j) 0))) ∧
    (env.execution_plan = pre ++ p :: post →
      (∀ q ∈ pre, (stepRun env q).1 = Status.ok) →
      (∀ j, j ≤ pre.length → env.terminate_flag j = false) →
      env.getKernel p.node_index = some k → k.compute = Status.ok →
      ∀ m c d msg, p.free_from_index ≤ m → m ≤ p.free_to_index →
        (∀ j, p.free_from_index ≤ j → j < m →
          env.releaseMLValue (env.to_be_freed.getD j 0) = Status.ok) →
        env.releaseMLValue (env.to_be_freed.getD m 0) = Status.error c d msg →
        (Execute env).1 = Status.error c d msg) := by
  constructor
  · intro hall
    exact releaseLoop_all_ok env.releaseMLValue env.to_be_freed _ _ _ rfl hall
  · intro hplan hok hterm hk hc m c d msg hm1 hm2 hpre herr
    have hsplit := runSteps_split env pre (p :: post) hplan hok
      (fun j hj => hterm j (Nat.le_of_lt hj))
    have hrel : (ReleaseNodeMLValues env p).1 = Status.error c d msg :=
      releaseLoop_first_error env.releaseMLValue env.to_be_freed _ _ _ rfl
        m hm1 hm2 hpre c d msg herr
    have hst : (stepRun env p).1 = Status.error c d msg := by
      rw [stepRun_compute_ok hk hc]
      exact hrel
    have hhead := runSteps_head_fail env p post
      (hterm pre.length le_rfl) (by rw [hst]; rfl)
    cases hE : runSteps env env.execution_plan 0 with
    | mk s tr =>
        have hs : s = Status.error c d msg := by
          have h1 : (runSteps env env.execution_plan 0).1 = Status.error c d msg := by
            rw [hsplit, hhead]
            exact hst
          rw [hE] at h1
          exact h1
        rw [hs] at hE
        rw [Execute_loop_error hE]

/-- C6 (amended): after a run in which every step succeeded and the outputs
were gathered, a memory pattern group is computed (and, when generation
succeeds, offered to the session-level cache) if and only if the frame has a
memory-pattern planner AND every original input (feed) is a tensor; any
cache offer is for exactly the feeds' shapes. In particular if any input is
not a shape-known dense tensor, no pattern is computed for that run. -/
theorem pattern_cache_condition (env : Env)
    (hok : ∀ p ∈ env.execution_plan, (stepRun env p).1 = Status.ok)
    (hterm : ∀ j, j < env.execution_plan.length → env.terminate_flag j = false)
    (hout : env.getOutputsStatus = Status.ok) :
    (Event.generatePatterns ∈ (Execute env).2 ↔
      env.hasMemoryPatternPlanner = true ∧
        (env.feeds.all fun feed => feed.isTensor) = true) ∧
    (∀ shapes, Event.updateCache shapes ∈ (Execute env).2 →
      env.hasMemoryPatternPlanner = true ∧
        (env.feeds.all fun feed => feed.isTensor) = true ∧
        shapes = env.feeds.map fun feed => feed.shape) := by
  have hloop := runSteps_all_ok env env.execution_plan 0 hok
    (fun j hj => by rw [Nat.zero_add]; exact hterm j hj)
  have hng : Event.generatePatterns ∉ stepsTrace env env.execution_plan := fun hmm =>
    not_mem_runSteps_of_not_step env env.execution_plan 0 Event.generatePatterns rfl
      (by rw [hloop]; exact hmm)
  have hnu : ∀ shapes, Event.updateCache shapes ∉ stepsTrace env env.execution_plan :=
    fun shapes hmm =>
      not_mem_runSteps_of_not_step env env.execution_plan 0 (Event.updateCache shapes) rfl
        (by rw [hloop]; exact hmm)
  cases hmp : env.hasMemoryPatternPlanner with
  | false =>
      rw [Execute_no_planner hloop hout hmp]
      constructor
      · simp [List.mem_append, hng]
      · intro shapes hmem
        rcases List.mem_append.1 hmem with h | h
        · exact absurd h (hnu shapes)
        · simp at h
  | true =>
      cases hall : (env.feeds.all fun feed => feed.isTensor) with
      | false =>
          rw [Execute_not_all_tensors hloop hout hmp hall]
          constructor
          · simp [List.mem_append, hng, hall]
          · intro shapes hmem
            rcases List.mem_append.1 hmem with h | h
            · exact absurd h (hnu shapes)
            · simp at h
      | true =>
          cases hgen : env.generatePatternsStatus with
          | error c d m =>
              rw [Execute_generate_error hloop hout hmp hall hgen]
              constructor
              · simp [List.mem_append, hng]
              · intro shapes hmem
                rcases List.mem_append.1 hmem with h | h
                · exact absurd h (hnu shapes)
                · simp at h
          | ok =>
              cases hupd : env.updateMemoryPatternGroupCacheStatus with
              | error c d m =>
                  rw [Execute_update_error hloop hout hmp hall hgen hupd]
                  constructor
                  · simp [List.mem_append, hng]
                  · intro shapes hmem
                    rcases List.mem_append.1 hmem with h | h
                    · exact absurd h (hnu shapes)
                    · simp at h
                      exact ⟨rfl, rfl, h⟩
              | ok =>
                  rw [Execute_full_ok hloop hout hmp hall hgen hupd]
                  constructor
                  · simp [List.mem_append, hng]
                  · intro shapes hmem
                    rcases List.mem_append.1 hmem with h | h
                    · exact absurd h (hnu shapes)
                    · simp at h
                      exact ⟨rfl, rfl, h⟩

/-- C10: when every step succeeds and the outputs have been gathered into
the caller's sinks, but the memory-pattern generation or the pattern-cache
update fails, `Execute` returns exactly that failure status even though the
output gathering already happened (the `getOutputs` call is in the trace). -/
theorem pattern_failure_surfaced (env : Env)
    (hok : ∀ p ∈ env.execution_plan, (stepRun env p).1 = Status.ok)
    (hterm : ∀ j, j < env.execution_plan.length → env.terminate_flag j = false)
    (hout : env.getOutputsStatus = Status.ok)
    (hmp : env.hasMemoryPatternPlanner = true)
    (hall : (env.feeds.all fun feed => feed.isTensor) = true) :
    (∀ c d m, env.generatePatternsStatus = Status.error c d m →
      (Execute env).1 = Status.error c d m ∧ Event.getOutputs ∈ (Execute env).2) ∧
    (env.generatePatternsStatus = Status.ok →
      ∀ c d m, env.updateMemoryPatternGroupCacheStatus = Status.error c d m →
      (Execute env).1 = Status.error c d m ∧ Event.getOutputs ∈ (Execute env).2) := by
  have hloop := runSteps_all_ok env env.execution_plan 0 hok
    (fun j hj => by rw [Nat.zero_add]; exact hterm j hj)
  constructor
  · intro c d m hgen
    rw [Execute_generate_error hloop hout hmp hall hgen]
    exact ⟨rfl, by simp⟩
  · intro hgen c d m hupd
    rw [Execute_update_error hloop hout hmp hall hgen hupd]
    exact ⟨rfl, by simp⟩

/-! ### Concrete counterexamples and witnesses -/

/-- C1 counterexample to the unamended claim: in `envC1x` the only step
succeeds, the terminate flag stays clear, and the step's kernel runs exactly
once in plan order, yet `Execute` does not return a success status (the
post-loop output gathering fails). -/
theorem execute_order_and_success_cex :
    (stepRun envC1x stepA).1 = Status.ok ∧
      envC1x.execution_plan = [stepA] ∧
      envC1x.terminate_flag 0 = false ∧
      computeEvents (Execute envC1x).2 = [0] ∧
      (Execute envC1x).1 ≠ Status.ok := by
  decide

/-- C1 witness: the amended theorem applied to the concrete run `envOK`. -/
theorem execute_order_and_success_witness :
    (Execute envOK).1 = Status.ok ∧ computeEvents (Execute envOK).2 = [0, 1] := by
  have h := execute_order_and_success envOK (by decide) (by decide) (by decide) (by decide)
  exact ⟨h.1, h.2.trans (by decide)⟩

/-- C2 witness: the abort theorem applied to `envC2x`, whose second step's
kernel fails with category 7, code 9, message boom. -/
theorem execute_abort_on_compute_failure_witness :
    (Execute envC2x).1 =
        Status.error 7 9
          "Non-zero status code returned while running Node: nodeB Status Message: boom" ∧
      computeEvents (Execute envC2x).2 = [0, 1] := by
  have h := execute_abort_on_compute_failure envC2x [stepA] [] stepB kernelErrB 7 9 "boom"
    rfl (by decide) (by decide) rfl rfl
  exact ⟨h.1.trans (by decide), h.2.1.trans (by decide)⟩

/-- C3 witness: the fence-ordering theorem applied to the fenced run
`envFenced` (queue 3, fences 10 and 12). -/
theorem step_fence_ordering_witness :
    Event.afterInputFence 10 3 ∈ (stepRun envFenced stepA).2 ∧
      Event.afterOutputFence 12 3 ∈ (stepRun envFenced stepA).2 := by
  obtain ⟨bs, as, rs, hdec, _, _, _, hin, _, hout⟩ :=
    (step_fence_ordering envFenced stepA kernelFenced rfl rfl).1 rfl
  have h1 : Event.afterInputFence 10 3 ∈ as := (hin 0 10 (by decide) rfl).2
  have h2 : Event.afterOutputFence 12 3 ∈ as := (hout 0 12 (by decide) rfl).2
  rw [hdec]
  exact ⟨List.mem_append.2 (Or.inl (List.mem_append.2 (Or.inr h1))),
    List.mem_append.2 (Or.inl (List.mem_append.2 (Or.inr h2)))⟩

/-- C4 witness: the release theorem applied to `envRel` (both releases
succeed, slots 5 and 7 released in range order) and to `envRelErr` (the
second release fails and `Execute` returns that failure). -/
theorem release_range_and_failure_witness :
    ReleaseNodeMLValues envRel stepR = (Status.ok, [Event.release 5, Event.release 7]) ∧
      (Execute envRelErr).1 = Status.error 4 2 "free failed" := by
  constructor
  · have h := (release_range_and_failure envRel stepR [] [] kernelOkA).1 (by decide)
    exact h.trans (by decide)
  · exact (release_range_and_failure envRelErr stepR [] [] kernelOkA).2 rfl
      (by decide) (by decide) rfl rfl 1 4 2 "free failed" (by decide) (by decide)
      (by decide) (by decide)

/-- C5 witness: the cancellation theorem applied to `envTerm`, whose flag is
observed set at the poll before step 1. -/
theorem execute_cancellation_witness :
    (Execute envTerm).1 = terminateStatus ∧
      computeEvents (Execute envTerm).2 = [0] := by
  have h := execute_cancellation envTerm [stepA] [] stepB rfl (by decide) (by decide) rfl
  exact ⟨h.1, h.2.2.1.trans (by decide)⟩

/-- C6 counterexample to the unamended claim: `envC6x` is a successful run
whose feeds are all tensors, yet no memory pattern is computed, because the
frame has no memory-pattern planner. -/
theorem pattern_cache_condition_cex :
    List.all envC6x.feeds Feed.isTensor = true ∧
      (Execute envC6x).1 = Status.ok ∧
      Event.generatePatterns ∉ (Execute envC6x).2 := by
  decide

/-- C6 witness: the amended theorem applied to `envOK` (planner present, all
feeds tensors: the pattern is computed) and to `envC6x` (no planner: it is
not). -/
theorem pattern_cache_condition_witness :
    Event.generatePatterns ∈ (Execute envOK).2 ∧
      Event.generatePatterns ∉ (Execute envC6x).2 := by
  constructor
  · exact (pattern_cache_condition envOK (by decide) (by decide) rfl).1.mpr
      ⟨rfl, by decide⟩
  · intro hmem
    have h := (pattern_cache_condition envC6x (by decide) (by decide) rfl).1.mp hmem
    exact absurd h.1 (by decide)

/-- C8 witness: the null-kernel theorem applied to `envNull`, whose node 1
has no kernel. -/
theorem execute_null_kernel_witness :
    (Execute envNull).1 =
        Status.error ONNXRUNTIME FAIL "Got nullptr from GetKernel for node: nodeB" ∧
      computeEvents (Execute envNull).2 = [0] := by
  have h := execute_null_kernel_fatal envNull [stepA] [] stepB rfl (by decide) (by decide) rfl
  exact ⟨h.1.trans (by decide), h.2.2.1.trans (by decide)⟩

/-- C9 witness: the CPU-input override theorem applied to `envFenced`: the
fenced input at position 0 (declared CPU-input) gets the CPU provider, the
one at position 1 and the fenced output get the node's provider MyEP. -/
theorem step_fence_cpu_input_override_witness :
    Event.beforeInputFence 10 kCpuExecutionProvider 3 ∈ (stepRun envFenced stepA).2 ∧
      Event.beforeInputFence 13 "MyEP" 3 ∈ (stepRun envFenced stepA).2 ∧
      Event.beforeOutputFence 12 "MyEP" 3 ∈ (stepRun envFenced stepA).2 := by
  have h := step_fence_cpu_input_override envFenced stepA kernelFenced rfl rfl
  exact ⟨h.1 0 10 (by decide) rfl rfl, h.2.1 1 13 (by decide) rfl rfl,
    h.2.2.2.1 0 12 (by decide) rfl⟩

/-- C10 witness: the pattern-failure theorem applied to `envC10a` (pattern
generation fails) and `envC10b` (cache update fails); in both the outputs
were already gathered. -/
theorem pattern_failure_surfaced_witness :
    (Execute envC10a).1 = Status.error 3 5 "gen fail" ∧
      Event.getOutputs ∈ (Execute envC10a).2 ∧
      (Execute envC10b).1 = Status.error 3 6 "upd fail" := by
  have ha := (pattern_failure_surfaced envC10a (by decide) (by decide) rfl rfl
    (by decide)).1 3 5 "gen fail" rfl
  have hb := (pattern_failure_surfaced envC10b (by decide) (by decide) rfl rfl
    (by decide)).2 rfl 3 6 "upd fail" rfl
  exact ⟨ha.1, ha.2, hb.1⟩

end SeqExec
